import Mathlib

/-!
Verification development for the LLM-Memorizer memory service
(`src/main.py`): a shallow embedding of the two MCP operations
`save_memory` and `search_memories` over a Supabase "memories" table,
together with proofs of the retrieval / validation / scoping contract.

Python strings are modelled as `List Char`; the backend table as a
`List MemoryRecord` in storage order; a backend call either fails with a
message or returns rows (`Except String _`).  Backend string comparison
(`gte` / `lte` on the denormalized `timestamp` column) is modelled as
bytewise lexicographic order on the ISO-8601 text, and `order(desc)` as a
sort by that order.  Each operation's result carries the number of backend
`execute()` calls it performed, so that "no backend query is executed"
style properties are expressible.
-/

/-! ## Python string primitives -/

/-- Code-point three-way comparison of two characters. -/
def charCmp (a b : Char) : Ordering :=
  if a.toNat < b.toNat then .lt
  else if b.toNat < a.toNat then .gt
  else .eq

/-- Bytewise three-way comparison of two Python strings (code-point order),
as used by the backend for `gte` / `lte` on the text timestamp column. -/
def strCmp : List Char → List Char → Ordering
  | [], [] => .eq
  | [], _ :: _ => .lt
  | _ :: _, [] => .gt
  | a :: xs, b :: ys => (charCmp a b).then (strCmp xs ys)

/-- `a <= b` on Python strings / text columns. -/
def strLe (a b : List Char) : Bool := strCmp a b != Ordering.gt

/-- Python `s.split(sep)` for a single-character separator: splits on every
occurrence, keeping empty fields, and returns `[s]` when `sep` is absent
(`"".split(sep) == [""]`). -/
def pySplit (sep : Char) : List Char → List (List Char)
  | [] => [[]]
  | c :: cs =>
    let rest := pySplit sep cs
    if c = sep then [] :: rest
    else (c :: rest.headD []) :: rest.tail

/-- An ASCII digit, the `\d` of the `strptime` regexes. -/
def isDigitCh (c : Char) : Bool := 48 ≤ c.toNat && c.toNat ≤ 57

/-- A token of ASCII digits. -/
def digitsTok (tok : List Char) : Bool := tok.all isDigitCh

/-- Numeric value of a digit token, Python `int(token)`. -/
def digitsToNat : List Char → Nat
  | [] => 0
  | c :: cs => (c.toNat - 48) * 10 ^ cs.length + digitsToNat cs

/-! ## strptime models

`search_memories` validates its arguments with
`datetime.datetime.strptime(date, '%Y-%m-%d')` and
`datetime.datetime.strptime(time, '%H:%M:%S')`, catching `ValueError`.
The CPython `_strptime` regexes are `%Y = \d\d\d\d`,
`%m = 1[0-2]|0[1-9]|[1-9]`, `%d = 3[01]|[12]\d|0[1-9]|[1-9]`,
`%H = 2[0-3]|[0-1]\d|\d`, `%M = [0-5]\d|\d`, `%S = 6[0-1]|[0-5]\d|\d`,
anchored with no unconverted data; the subsequent `datetime(...)`
construction additionally requires `year >= 1`, a calendar-valid day,
and `second <= 59`. -/

/-- Gregorian leap year, as used by `datetime` for day-of-month bounds. -/
def isLeap (y : Nat) : Bool := (y % 4 == 0 && y % 100 != 0) || y % 400 == 0

/-- Days in a month, as enforced by the `datetime` constructor. -/
def daysInMonth (y m : Nat) : Nat :=
  if m = 2 then (if isLeap y then 29 else 28)
  else if m = 4 ∨ m = 6 ∨ m = 9 ∨ m = 11 then 30
  else 31

/-- `strptime(s, '%Y-%m-%d')` succeeds (no `ValueError`). -/
def validDateStr (s : List Char) : Bool :=
  match pySplit '-' s with
  | [ys, ms, ds] =>
    ys.length == 4 && digitsTok ys &&
    (ms.length == 1 || ms.length == 2) && digitsTok ms &&
    (ds.length == 1 || ds.length == 2) && digitsTok ds &&
    decide (1 ≤ digitsToNat ys) &&
    decide (1 ≤ digitsToNat ms) && decide (digitsToNat ms ≤ 12) &&
    decide (1 ≤ digitsToNat ds) &&
    decide (digitsToNat ds ≤ daysInMonth (digitsToNat ys) (digitsToNat ms))
  | _ => false

/-- `strptime(s, '%H:%M:%S')` succeeds (no `ValueError`). -/
def validTimeStr (s : List Char) : Bool :=
  match pySplit ':' s with
  | [hs, ms, ss] =>
    (hs.length == 1 || hs.length == 2) && digitsTok hs &&
    (ms.length == 1 || ms.length == 2) && digitsTok ms &&
    (ss.length == 1 || ss.length == 2) && digitsTok ss &&
    decide (digitsToNat hs ≤ 23) &&
    decide (digitsToNat ms ≤ 59) && decide (digitsToNat ss ≤ 59)
  | _ => false

/-! ## Timestamps

`save_memory` stamps records with `datetime.datetime.now().isoformat()`:
`YYYY-MM-DDTHH:MM:SS` followed by `.ffffff` when microseconds are
non-zero. -/

/-- A `datetime` value, as stored (denormalized) in the timestamp column. -/
structure Timestamp where
  year : Nat
  month : Nat
  day : Nat
  hour : Nat
  minute : Nat
  second : Nat
  micro : Nat
deriving DecidableEq, Repr

/-- Two zero-padded decimal digits, `%02d`. -/
def pad2 (n : Nat) : List Char := [Nat.digitChar (n / 10), Nat.digitChar (n % 10)]

/-- Four zero-padded decimal digits, `%04d`. -/
def pad4 (n : Nat) : List Char :=
  [Nat.digitChar (n / 1000), Nat.digitChar (n / 100 % 10),
   Nat.digitChar (n / 10 % 10), Nat.digitChar (n % 10)]

/-- Six zero-padded decimal digits, `%06d` (microseconds). -/
def pad6 (n : Nat) : List Char :=
  [Nat.digitChar (n / 100000), Nat.digitChar (n / 10000 % 10),
   Nat.digitChar (n / 1000 % 10), Nat.digitChar (n / 100 % 10),
   Nat.digitChar (n / 10 % 10), Nat.digitChar (n % 10)]

/-- The `YYYY-MM-DD` part of `isoformat()`. -/
def dateChars (t : Timestamp) : List Char :=
  pad4 t.year ++ '-' :: (pad2 t.month ++ '-' :: pad2 t.day)

/-- The `HH:MM:SS` part of `isoformat()`. -/
def timeChars (t : Timestamp) : List Char :=
  pad2 t.hour ++ ':' :: (pad2 t.minute ++ ':' :: pad2 t.second)

/-- The `.ffffff` part of `isoformat()`, empty when microseconds are 0. -/
def fracChars (t : Timestamp) : List Char :=
  if t.micro = 0 then [] else '.' :: pad6 t.micro

/-- `datetime.isoformat()`. -/
def isoformat (t : Timestamp) : List Char :=
  dateChars t ++ 'T' :: (timeChars t ++ fracChars t)

/-- The field ranges `datetime` guarantees for every constructed value. -/
def Timestamp.Valid (t : Timestamp) : Prop :=
  1 ≤ t.year ∧ t.year ≤ 9999 ∧ 1 ≤ t.month ∧ t.month ≤ 12 ∧
  1 ≤ t.day ∧ t.day ≤ 31 ∧ t.hour ≤ 23 ∧ t.minute ≤ 59 ∧
  t.second ≤ 59 ∧ t.micro ≤ 999999

instance (t : Timestamp) : Decidable t.Valid := by
  unfold Timestamp.Valid; infer_instance

/-- Three-way comparison of naturals. -/
def ncmp (a b : Nat) : Ordering :=
  if a < b then .lt else if b < a then .gt else .eq

/-- Chronological three-way comparison of two `datetime` values
(lexicographic over the fields). -/
def Timestamp.cmp (a b : Timestamp) : Ordering :=
  (ncmp a.year b.year).then ((ncmp a.month b.month).then
    ((ncmp a.day b.day).then ((ncmp a.hour b.hour).then
      ((ncmp a.minute b.minute).then ((ncmp a.second b.second).then
        (ncmp a.micro b.micro))))))

/-- Chronological `a <= b` on `datetime` values. -/
def chronoLe (a b : Timestamp) : Bool := Timestamp.cmp a b != Ordering.gt

/-! ## The memories table -/

/-- `main.py` line 17: all operations are pinned to this user. -/
def DEFAULT_USER_ID : Nat := 1

/-- One row of the `memories` table, with the columns the code touches. -/
structure MemoryRecord where
  user_id : Nat
  content : String
  timestamp : List Char
  message : String
deriving DecidableEq, Repr

/-- `.eq("user_id", DEFAULT_USER_ID)`: the base query of `search_memories`. -/
def userRecords (db : List MemoryRecord) : List MemoryRecord :=
  db.filter (fun r => r.user_id == DEFAULT_USER_ID)

/-! ## search_memories (`main.py` lines 103-209) -/

/-- `date_start = f"{date}T00:00:00"`. -/
def dateStart (d : List Char) : List Char := d ++ 'T' :: "00:00:00".toList

/-- `date_end = f"{date}T23:59:59"`. -/
def dateEnd (d : List Char) : List Char := d ++ 'T' :: "23:59:59".toList

/-- `query.gte("timestamp", date_start).lte("timestamp", date_end)` applied
to one row: bytewise range test on the timestamp text. -/
def inDateRange (d : List Char) (ts : List Char) : Bool :=
  strLe (dateStart d) ts && strLe ts (dateEnd d)

/-- Lines 161-167: `time_parts = time.split(':')`,
`hour = time_parts[0]`, `minute = time_parts[1] if len(time_parts) > 1
else "00"`, `time_filter = f"{hour}:{minute}"`. -/
def timeFilterOf (t : List Char) : List Char :=
  let parts := pySplit ':' t
  (parts.getD 0 []) ++ ':' :: (parts.getD 1 "00".toList)

/-- Lines 175-181: keep a record iff `'T' in timestamp` and
`timestamp.split('T')[1][:5] == time_filter`. -/
def timeMatches (tf : List Char) (ts : List Char) : Bool :=
  if ts.contains 'T' then ((pySplit 'T' ts).getD 1 []).take 5 == tf
  else false

/-- Insert a record into a newest-first list, keeping it newest-first. -/
def insertDesc (r : MemoryRecord) : List MemoryRecord → List MemoryRecord
  | [] => [r]
  | x :: xs =>
    if strLe x.timestamp r.timestamp then r :: x :: xs
    else x :: insertDesc r xs

/-- Line 193: `query.order("timestamp", desc=True)` — the backend returns
the rows sorted newest-first by the timestamp text. -/
def sortDesc : List MemoryRecord → List MemoryRecord
  | [] => []
  | r :: rs => insertDesc r (sortDesc rs)

/-- Line 130's message prefix. -/
def dbConnErr (e : String) : String := "Database connection error: " ++ e

/-- Line 151's message. -/
def dateFmtErr : String := "Invalid date format. Use YYYY-MM-DD."

/-- Line 189's message. -/
def timeFmtErr : String := "Invalid time format. Use HH:MM:SS."

/-- What `search_memories` JSON-encodes back to the caller: a record list
or an `{"error": ...}` object. -/
inductive SearchOutcome where
  | ok (records : List MemoryRecord)
  | err (msg : String)
deriving DecidableEq, Repr

/-- Python truthiness of an optional string argument (`if date:`):
`None` and `""` are falsy. -/
def truthy : Option (List Char) → Bool
  | none => false
  | some s => !s.isEmpty

/-- Lines 136-151: the date branch.  Validates with `strptime`, then
narrows the (not yet executed) query to the day's closed text range. -/
def applyDateFilter (q : List MemoryRecord) (date : Option (List Char)) :
    Except String (List MemoryRecord) :=
  if truthy date then
    let d := date.getD []
    if validDateStr d then .ok (q.filter (fun r => inDateRange d r.timestamp))
    else .error dateFmtErr
  else .ok q

/-- Lines 154-201: the time branch (manual post-filter, returned without
ordering) or the final ordered execute.  The second component is the total
number of backend `execute()` calls of the whole operation, counting the
probe of lines 124-130 that already happened. -/
def applyTimeStep (q2 : List MemoryRecord) (time : Option (List Char)) :
    SearchOutcome × Nat :=
  if truthy time then
    let t := time.getD []
    if validTimeStr t then
      (.ok (q2.filter (fun r => timeMatches (timeFilterOf t) r.timestamp)), 2)
    else (.err timeFmtErr, 1)
  else (.ok (sortDesc q2), 2)

/-- `search_memories` (lines 103-209).  `backend` is the memories table, or
the failure every `execute()` raises when the connection is down (caught at
the probe, line 128).  Returns the outcome and the number of backend
`execute()` calls performed. -/
def search_memories (backend : Except String (List MemoryRecord))
    (date time : Option (List Char)) : SearchOutcome × Nat :=
  match backend with
  | .error e => (.err (dbConnErr e), 1)
  | .ok db =>
    match applyDateFilter (userRecords db) date with
    | .error m => (.err m, 1)
    | .ok q2 => applyTimeStep q2 time

/-! ## save_memory (`main.py` lines 59-101) -/

/-- A primitive Python value inside a returned row dict. -/
inductive PyPrim where
  | s (v : String)
  | i (v : Int)
  | nil
deriving DecidableEq, Repr

/-- A Python value, as far as `save_memory`'s id probe needs: the probe's
`.data` is a list of row dicts, and `"id" in data` compares the string
`"id"` against each element with Python `==`, which is `False` between a
string and a dict. -/
inductive PyVal where
  | pstr (s : String)
  | pint (n : Int)
  | pdict (fields : List (String × PyPrim))
deriving DecidableEq, Repr

/-- Is this Python value a dict? -/
def PyVal.isDict : PyVal → Bool
  | .pdict _ => true
  | _ => false

/-- Line 81's guard: `"id" in supabase.table("memories").select("id")
.limit(1).execute().data`  — Python `in` over the row list. -/
def idProbeHit (data : List PyVal) : Bool :=
  data.any (fun v => v == PyVal.pstr "id")

/-- Minimal `json.dumps` string escaping for the message envelope. -/
def escChar (c : Char) : List Char :=
  if c = '"' then ['\\', '"']
  else if c = '\\' then ['\\', '\\']
  else if c = '\n' then ['\\', 'n']
  else if c = '\t' then ['\\', 't']
  else if c = '\r' then ['\\', 'r']
  else [c]

/-- `json.dumps([{"role": "user", "content": text}])` (line 72/79). -/
def messageJson (text : String) : String :=
  "[\x7b\"role\": \"user\", \"content\": \"" ++
    String.mk ((text.toList.map escChar).flatten) ++ "\"\x7d]"

/-- The `memory_data` payload of lines 75-86, after the `None` id has been
deleted (`id = none` models the absent key). -/
structure MemoryData where
  user_id : Nat
  content : String
  timestamp : List Char
  message : String
  id : Option String
deriving DecidableEq, Repr

/-- Lines 75-86: build the payload; the id is a fresh UUID only when the
probe guard hits, otherwise the key is removed. -/
def memory_data (text : String) (nowIso : List Char) (uuid : String)
    (probeData : List PyVal) : MemoryData :=
  { user_id := DEFAULT_USER_ID
    content := text
    timestamp := nowIso
    message := messageJson text
    id := if idProbeHit probeData then some uuid else none }

/-- What `save_memory` produced: the reply text and the payload actually
upserted (none when an exception aborted before / at the upsert). -/
structure SaveResult where
  reply : String
  upserted : Option MemoryData
deriving DecidableEq, Repr

/-- `save_memory` (lines 59-101).  `nowIso` is `datetime.now().isoformat()`,
`uuid` the generated `uuid4` string, `probe` the id-probe call's result and
`upsert` the upsert call's result; any raised error is caught by the
`except` of line 97 and stringified. -/
def save_memory (text : String) (nowIso : List Char) (uuid : String)
    (probe : Except String (List PyVal)) (upsert : Except String Unit) :
    SaveResult :=
  match probe with
  | .error e => ⟨"Error saving memory: " ++ e, none⟩
  | .ok data =>
    let md := memory_data text nowIso uuid data
    match upsert with
    | .error e => ⟨"Error saving memory: " ++ e, none⟩
    | .ok _ =>
      ⟨"Successfully saved memory to Supabase at " ++ String.mk nowIso,
        some md⟩

/-! ## Notions used to state the specification claims -/

/-- The spec's ordering contract: every record is at least as new (by the
timestamp text) as every record after it. -/
def NewestFirst (rs : List MemoryRecord) : Prop :=
  List.Pairwise (fun a b => strLe b.timestamp a.timestamp = true) rs

/-- A canonical (zero-padded) `HH:MM:SS` argument string. -/
def timeArg (h m s : Nat) : List Char :=
  pad2 h ++ ':' :: (pad2 m ++ ':' :: pad2 s)

/-- A canonical (zero-padded) `YYYY-MM-DD` argument string. -/
def dateArg (y mo d : Nat) : List Char :=
  pad4 y ++ '-' :: (pad2 mo ++ '-' :: pad2 d)

/-- A record given with its structured creation instant, from which the
stored row is obtained by serializing the timestamp with `isoformat()`. -/
structure TRecord where
  user_id : Nat
  content : String
  ts : Timestamp
deriving DecidableEq, Repr

/-- The stored row of a structured record. -/
def TRecord.toMemory (r : TRecord) : MemoryRecord :=
  ⟨r.user_id, r.content, isoformat r.ts, messageJson r.content⟩

/-- Day lower bound `D 00:00:00`, as a `datetime` value. -/
def dayStart (y mo d : Nat) : Timestamp := ⟨y, mo, d, 0, 0, 0, 0⟩

/-- Day upper bound `D 23:59:59`, as a `datetime` value. -/
def dayEnd (y mo d : Nat) : Timestamp := ⟨y, mo, d, 23, 59, 59, 0⟩

/-! ## Order lemmas for the backend's string comparison -/

theorem charCmp_lt_iff {a b : Char} : charCmp a b = .lt ↔ a.toNat < b.toNat := by
  unfold charCmp; split_ifs <;> simp_all

theorem charCmp_gt_iff {a b : Char} : charCmp a b = .gt ↔ b.toNat < a.toNat := by
  unfold charCmp; split_ifs <;> simp_all <;> omega

theorem charCmp_eq_iff {a b : Char} : charCmp a b = .eq ↔ a.toNat = b.toNat := by
  unfold charCmp; split_ifs <;> simp_all <;> omega

theorem charCmp_self (a : Char) : charCmp a a = .eq := charCmp_eq_iff.mpr rfl

theorem then_ne_gt {o p : Ordering} :
    o.then p ≠ .gt ↔ (o = .lt ∨ (o = .eq ∧ p ≠ .gt)) := by
  cases o <;> simp [Ordering.then]

theorem then_assoc (a b c : Ordering) :
    (a.then b).then c = a.then (b.then c) := by
  cases a <;> cases b <;> rfl

theorem strLe_eq_true {x y : List Char} :
    strLe x y = true ↔ strCmp x y ≠ .gt := by
  unfold strLe
  cases strCmp x y <;> decide

theorem strCmp_nil_ne_gt : ∀ (z : List Char), strCmp [] z ≠ .gt := by
  intro z; cases z <;> simp [strCmp]

theorem strCmp_trans_ne_gt :
    ∀ x y z : List Char, strCmp x y ≠ .gt → strCmp y z ≠ .gt → strCmp x z ≠ .gt := by
  intro x
  induction x with
  | nil => intro y z _ _; exact strCmp_nil_ne_gt z
  | cons a xs ih =>
    intro y z hxy hyz
    cases y with
    | nil => simp [strCmp] at hxy
    | cons b ys =>
      cases z with
      | nil => simp [strCmp] at hyz
      | cons c zs =>
        simp only [strCmp] at hxy hyz ⊢
        rcases then_ne_gt.mp hxy with h1 | ⟨h1, h1'⟩ <;>
          rcases then_ne_gt.mp hyz with h2 | ⟨h2, h2'⟩
        · exact then_ne_gt.mpr (Or.inl (charCmp_lt_iff.mpr
            (lt_trans (charCmp_lt_iff.mp h1) (charCmp_lt_iff.mp h2))))
        · exact then_ne_gt.mpr (Or.inl (charCmp_lt_iff.mpr
            (charCmp_eq_iff.mp h2 ▸ charCmp_lt_iff.mp h1)))
        · exact then_ne_gt.mpr (Or.inl (charCmp_lt_iff.mpr
            (charCmp_eq_iff.mp h1 ▸ charCmp_lt_iff.mp h2)))
        · refine then_ne_gt.mpr (Or.inr ⟨charCmp_eq_iff.mpr ?_, ih ys zs h1' h2'⟩)
          rw [charCmp_eq_iff.mp h1, charCmp_eq_iff.mp h2]

theorem strLe_trans {x y z : List Char}
    (h1 : strLe x y = true) (h2 : strLe y z = true) : strLe x z = true :=
  strLe_eq_true.mpr
    (strCmp_trans_ne_gt x y z (strLe_eq_true.mp h1) (strLe_eq_true.mp h2))

theorem strLe_total : ∀ x y : List Char, strLe x y = true ∨ strLe y x = true := by
  intro x
  induction x with
  | nil => intro y; exact Or.inl (strLe_eq_true.mpr (strCmp_nil_ne_gt y))
  | cons a xs ih =>
    intro y
    cases y with
    | nil => exact Or.inr (strLe_eq_true.mpr (strCmp_nil_ne_gt (a :: xs)))
    | cons b ys =>
      rcases Nat.lt_trichotomy a.toNat b.toNat with h | h | h
      · exact Or.inl (strLe_eq_true.mpr (by
          simp only [strCmp]
          exact then_ne_gt.mpr (Or.inl (charCmp_lt_iff.mpr h))))
      · rcases ih ys with h' | h'
        · exact Or.inl (strLe_eq_true.mpr (by
            simp only [strCmp]
            exact then_ne_gt.mpr (Or.inr ⟨charCmp_eq_iff.mpr h, strLe_eq_true.mp h'⟩)))
        · exact Or.inr (strLe_eq_true.mpr (by
            simp only [strCmp]
            exact then_ne_gt.mpr (Or.inr ⟨charCmp_eq_iff.mpr h.symm, strLe_eq_true.mp h'⟩)))
      · exact Or.inr (strLe_eq_true.mpr (by
          simp only [strCmp]
          exact then_ne_gt.mpr (Or.inl (charCmp_lt_iff.mpr h))))

/-! ## The ordered execute: sortedness and membership -/

theorem mem_insertDesc {x r : MemoryRecord} :
    ∀ {l : List MemoryRecord}, x ∈ insertDesc r l ↔ x = r ∨ x ∈ l := by
  intro l
  induction l with
  | nil => simp [insertDesc]
  | cons h t ih =>
    simp only [insertDesc]
    split
    · simp only [List.mem_cons]
    · simp only [List.mem_cons, ih]
      tauto

theorem mem_sortDesc {x : MemoryRecord} :
    ∀ {l : List MemoryRecord}, x ∈ sortDesc l ↔ x ∈ l := by
  intro l
  induction l with
  | nil => simp [sortDesc]
  | cons h t ih => simp [sortDesc, mem_insertDesc, ih]

theorem newestFirst_insertDesc {r : MemoryRecord} :
    ∀ {l : List MemoryRecord}, NewestFirst l → NewestFirst (insertDesc r l) := by
  intro l
  induction l with
  | nil => intro _; simp [insertDesc, NewestFirst]
  | cons x xs ih =>
    intro hl
    have hx : ∀ y ∈ xs, strLe y.timestamp x.timestamp = true :=
      fun y hy => (List.pairwise_cons.mp hl).1 y hy
    have hxs : NewestFirst xs := (List.pairwise_cons.mp hl).2
    simp only [insertDesc]
    split
    · rename_i hle
      refine List.pairwise_cons.mpr ⟨?_, hl⟩
      intro y hy
      rcases List.mem_cons.mp hy with rfl | hy'
      · exact hle
      · exact strLe_trans (hx y hy') hle
    · rename_i hgt
      have hrx : strLe r.timestamp x.timestamp = true := by
        rcases strLe_total x.timestamp r.timestamp with h | h
        · exact absurd h hgt
        · exact h
      refine List.pairwise_cons.mpr ⟨?_, ih hxs⟩
      intro y hy
      rcases mem_insertDesc.mp hy with rfl | hy'
      · exact hrx
      · exact hx y hy'

theorem newestFirst_sortDesc : ∀ l : List MemoryRecord, NewestFirst (sortDesc l) := by
  intro l
  induction l with
  | nil => simp [sortDesc, NewestFirst]
  | cons x xs ih => exact newestFirst_insertDesc ih

/-! ## Digits and zero-padded fields -/

theorem digitChar_toNat : ∀ k, k < 10 → (Nat.digitChar k).toNat = 48 + k := by
  decide

theorem isDigitCh_digitChar : ∀ k, k < 10 → isDigitCh (Nat.digitChar k) = true := by
  decide

theorem digitChar_inj : ∀ i, i < 10 → ∀ j, j < 10 →
    (Nat.digitChar i = Nat.digitChar j ↔ i = j) := by
  decide

theorem charCmp_digitChar {a b : Nat} (ha : a < 10) (hb : b < 10) :
    charCmp (Nat.digitChar a) (Nat.digitChar b) = ncmp a b := by
  unfold charCmp ncmp
  rw [digitChar_toNat a ha, digitChar_toNat b hb]
  split_ifs <;> first | rfl | omega

theorem pad2_all_digits {n : Nat} (h : n < 100) : ∀ c ∈ pad2 n, isDigitCh c = true := by
  intro c hc
  simp only [pad2, List.mem_cons, List.not_mem_nil, or_false] at hc
  rcases hc with rfl | rfl <;> exact isDigitCh_digitChar _ (by omega)

theorem pad4_all_digits {n : Nat} (h : n < 10000) : ∀ c ∈ pad4 n, isDigitCh c = true := by
  intro c hc
  simp only [pad4, List.mem_cons, List.not_mem_nil, or_false] at hc
  rcases hc with rfl | rfl | rfl | rfl <;> exact isDigitCh_digitChar _ (by omega)

theorem pad6_all_digits {n : Nat} (h : n < 1000000) : ∀ c ∈ pad6 n, isDigitCh c = true := by
  intro c hc
  simp only [pad6, List.mem_cons, List.not_mem_nil, or_false] at hc
  rcases hc with rfl | rfl | rfl | rfl | rfl | rfl <;>
    exact isDigitCh_digitChar _ (by omega)

theorem not_mem_of_all_digits {c : Char} {l : List Char}
    (hall : ∀ x ∈ l, isDigitCh x = true) (hc : isDigitCh c = false) : c ∉ l := by
  intro hmem
  rw [hall c hmem] at hc
  cases hc

theorem digitsTok_pad2 {n : Nat} (h : n < 100) : digitsTok (pad2 n) = true := by
  unfold digitsTok
  rw [List.all_eq_true]
  exact pad2_all_digits h

theorem digitsTok_pad4 {n : Nat} (h : n < 10000) : digitsTok (pad4 n) = true := by
  unfold digitsTok
  rw [List.all_eq_true]
  exact pad4_all_digits h

theorem digitsToNat_pad2 {n : Nat} (h : n < 100) : digitsToNat (pad2 n) = n := by
  simp only [pad2, digitsToNat, List.length_cons, List.length_nil,
    digitChar_toNat _ (show n / 10 < 10 by omega),
    digitChar_toNat _ (show n % 10 < 10 by omega)]
  omega

theorem digitsToNat_pad4 {n : Nat} (h : n < 10000) : digitsToNat (pad4 n) = n := by
  simp only [pad4, digitsToNat, List.length_cons, List.length_nil,
    digitChar_toNat _ (show n / 1000 < 10 by omega),
    digitChar_toNat _ (show n / 100 % 10 < 10 by omega),
    digitChar_toNat _ (show n / 10 % 10 < 10 by omega),
    digitChar_toNat _ (show n % 10 < 10 by omega)]
  have h1 : (10 : Nat) ^ 3 = 1000 := by norm_num
  have h2 : (10 : Nat) ^ 2 = 100 := by norm_num
  have h3 : (10 : Nat) ^ 1 = 10 := by norm_num
  have h4 : (10 : Nat) ^ 0 = 1 := by norm_num
  rw [h1, h2, h3, h4]
  omega

theorem strCmp_append_of_length {xs : List Char} :
    ∀ {ys : List Char} (u v : List Char), xs.length = ys.length →
      strCmp (xs ++ u) (ys ++ v) = (strCmp xs ys).then (strCmp u v) := by
  induction xs with
  | nil =>
    intro ys u v h
    cases ys with
    | nil => simp [strCmp, Ordering.then]
    | cons b bs => simp at h
  | cons a xs ih =>
    intro ys u v h
    cases ys with
    | nil => simp at h
    | cons b bs =>
      simp only [List.cons_append, strCmp, List.append_eq]
      rw [ih u v (by simpa using h), then_assoc]

theorem strCmp_cons_same {c : Char} {u v : List Char} :
    strCmp (c :: u) (c :: v) = strCmp u v := by
  simp [strCmp, charCmp_self, Ordering.then]

theorem then_eq_right (o : Ordering) : o.then Ordering.eq = o := by
  cases o <;> rfl

theorem ncmp_lt {a b : Nat} (h : a < b) : ncmp a b = .lt := by
  unfold ncmp; rw [if_pos h]

theorem ncmp_gt {a b : Nat} (h : b < a) : ncmp a b = .gt := by
  unfold ncmp; rw [if_neg (by omega), if_pos h]

theorem ncmp_self (a : Nat) : ncmp a a = .eq := by
  unfold ncmp; rw [if_neg (by omega), if_neg (by omega)]

/-- Positional composition: comparing a high digit block and then a low
block is comparing the combined values. -/
theorem ncmp_pos {k hi1 hi2 lo1 lo2 : Nat} (h1 : lo1 < k) (h2 : lo2 < k) :
    (ncmp hi1 hi2).then (ncmp lo1 lo2) = ncmp (k * hi1 + lo1) (k * hi2 + lo2) := by
  rcases Nat.lt_trichotomy hi1 hi2 with h | h | h
  · have hm : k * (hi1 + 1) ≤ k * hi2 := Nat.mul_le_mul_left k h
    rw [Nat.mul_succ] at hm
    have hv : k * hi1 + lo1 < k * hi2 + lo2 := by omega
    rw [ncmp_lt h, ncmp_lt hv]
    rfl
  · subst h
    rw [ncmp_self]
    show ncmp lo1 lo2 = _
    rcases Nat.lt_trichotomy lo1 lo2 with h' | h' | h'
    · rw [ncmp_lt h', ncmp_lt (by omega)]
    · subst h'; rw [ncmp_self, ncmp_self]
    · rw [ncmp_gt h', ncmp_gt (by omega)]
  · have hm : k * (hi2 + 1) ≤ k * hi1 := Nat.mul_le_mul_left k h
    rw [Nat.mul_succ] at hm
    have hv : k * hi2 + lo2 < k * hi1 + lo1 := by omega
    rw [ncmp_gt h, ncmp_gt hv]
    rfl

theorem strCmp_pad2 {a b : Nat} (ha : a < 100) (hb : b < 100) :
    strCmp (pad2 a) (pad2 b) = ncmp a b := by
  have h1 := charCmp_digitChar (show a / 10 < 10 by omega) (show b / 10 < 10 by omega)
  have h2 := charCmp_digitChar (show a % 10 < 10 by omega) (show b % 10 < 10 by omega)
  simp only [pad2, strCmp, h1, h2, then_eq_right]
  rw [ncmp_pos (show a % 10 < 10 by omega) (show b % 10 < 10 by omega),
    show 10 * (a / 10) + a % 10 = a by omega, show 10 * (b / 10) + b % 10 = b by omega]

theorem strCmp_pad4 {a b : Nat} (ha : a < 10000) (hb : b < 10000) :
    strCmp (pad4 a) (pad4 b) = ncmp a b := by
  have h1 := charCmp_digitChar (show a / 1000 < 10 by omega) (show b / 1000 < 10 by omega)
  have h2 := charCmp_digitChar (show a / 100 % 10 < 10 by omega)
    (show b / 100 % 10 < 10 by omega)
  have h3 := charCmp_digitChar (show a / 10 % 10 < 10 by omega)
    (show b / 10 % 10 < 10 by omega)
  have h4 := charCmp_digitChar (show a % 10 < 10 by omega) (show b % 10 < 10 by omega)
  simp only [pad4, strCmp, h1, h2, h3, h4, then_eq_right]
  rw [ncmp_pos (show a % 10 < 10 by omega) (show b % 10 < 10 by omega),
    show 10 * (a / 10 % 10) + a % 10 = a % 100 by omega,
    show 10 * (b / 10 % 10) + b % 10 = b % 100 by omega,
    ncmp_pos (show a % 100 < 100 by omega) (show b % 100 < 100 by omega),
    show 100 * (a / 100 % 10) + a % 100 = a % 1000 by omega,
    show 100 * (b / 100 % 10) + b % 100 = b % 1000 by omega,
    ncmp_pos (show a % 1000 < 1000 by omega) (show b % 1000 < 1000 by omega),
    show 1000 * (a / 1000) + a % 1000 = a by omega,
    show 1000 * (b / 1000) + b % 1000 = b by omega]

theorem strCmp_pad6 {a b : Nat} (ha : a < 1000000) (hb : b < 1000000) :
    strCmp (pad6 a) (pad6 b) = ncmp a b := by
  have h1 := charCmp_digitChar (show a / 100000 < 10 by omega)
    (show b / 100000 < 10 by omega)
  have h2 := charCmp_digitChar (show a / 10000 % 10 < 10 by omega)
    (show b / 10000 % 10 < 10 by omega)
  have h3 := charCmp_digitChar (show a / 1000 % 10 < 10 by omega)
    (show b / 1000 % 10 < 10 by omega)
  have h4 := charCmp_digitChar (show a / 100 % 10 < 10 by omega)
    (show b / 100 % 10 < 10 by omega)
  have h5 := charCmp_digitChar (show a / 10 % 10 < 10 by omega)
    (show b / 10 % 10 < 10 by omega)
  have h6 := charCmp_digitChar (show a % 10 < 10 by omega) (show b % 10 < 10 by omega)
  simp only [pad6, strCmp, h1, h2, h3, h4, h5, h6, then_eq_right]
  rw [ncmp_pos (show a % 10 < 10 by omega) (show b % 10 < 10 by omega),
    show 10 * (a / 10 % 10) + a % 10 = a % 100 by omega,
    show 10 * (b / 10 % 10) + b % 10 = b % 100 by omega,
    ncmp_pos (show a % 100 < 100 by omega) (show b % 100 < 100 by omega),
    show 100 * (a / 100 % 10) + a % 100 = a % 1000 by omega,
    show 100 * (b / 100 % 10) + b % 100 = b % 1000 by omega,
    ncmp_pos (show a % 1000 < 1000 by omega) (show b % 1000 < 1000 by omega),
    show 1000 * (a / 1000 % 10) + a % 1000 = a % 10000 by omega,
    show 1000 * (b / 1000 % 10) + b % 1000 = b % 10000 by omega,
    ncmp_pos (show a % 10000 < 10000 by omega) (show b % 10000 < 10000 by omega),
    show 10000 * (a / 10000 % 10) + a % 10000 = a % 100000 by omega,
    show 10000 * (b / 10000 % 10) + b % 10000 = b % 100000 by omega,
    ncmp_pos (show a % 100000 < 100000 by omega) (show b % 100000 < 100000 by omega),
    show 100000 * (a / 100000) + a % 100000 = a by omega,
    show 100000 * (b / 100000) + b % 100000 = b by omega]

/-! ## Python split lemmas -/

theorem pySplit_of_not_mem {sep : Char} :
    ∀ {s : List Char}, sep ∉ s → pySplit sep s = [s] := by
  intro s
  induction s with
  | nil => intro _; rfl
  | cons c cs ih =>
    intro h
    have hc : c ≠ sep := fun hcs => h (hcs ▸ List.mem_cons_self c cs)
    have hcs : sep ∉ cs := fun hm => h (List.mem_cons_of_mem c hm)
    simp [pySplit, hc, ih hcs]

theorem pySplit_append {sep : Char} {xs : List Char} (ys : List Char) (h : sep ∉ xs) :
    pySplit sep (xs ++ sep :: ys) = xs :: pySplit sep ys := by
  induction xs with
  | nil => simp [pySplit]
  | cons c cs ih =>
    have hc : c ≠ sep := fun hcs => h (hcs ▸ List.mem_cons_self c cs)
    have hcs : sep ∉ cs := fun hm => h (List.mem_cons_of_mem c hm)
    simp [pySplit, hc, ih hcs]

/-! ## Comparing serialized timestamps -/

theorem pad2_length (n : Nat) : (pad2 n).length = 2 := rfl

theorem pad4_length (n : Nat) : (pad4 n).length = 4 := rfl

theorem dateChars_length (t : Timestamp) : (dateChars t).length = 10 := by
  simp [dateChars, pad4, pad2]

theorem timeChars_length (t : Timestamp) : (timeChars t).length = 8 := by
  simp [timeChars, pad2]

/-- Splitting a comparison at a shared separator character. -/
theorem strCmp_sep {xs ys u v : List Char} (c : Char) (h : xs.length = ys.length) :
    strCmp (xs ++ c :: u) (ys ++ c :: v) = (strCmp xs ys).then (strCmp u v) := by
  rw [strCmp_append_of_length (c :: u) (c :: v) h, strCmp_cons_same]

theorem strCmp_sep_pad2 {a b : Nat} {u v : List Char} (c : Char) :
    strCmp (pad2 a ++ c :: u) (pad2 b ++ c :: v) =
      (strCmp (pad2 a) (pad2 b)).then (strCmp u v) :=
  strCmp_sep c rfl

theorem strCmp_sep_pad4 {a b : Nat} {u v : List Char} (c : Char) :
    strCmp (pad4 a ++ c :: u) (pad4 b ++ c :: v) =
      (strCmp (pad4 a) (pad4 b)).then (strCmp u v) :=
  strCmp_sep c rfl

theorem strCmp_dateChars {a b : Timestamp} (ha : a.Valid) (hb : b.Valid) :
    strCmp (dateChars a) (dateChars b) =
      (ncmp a.year b.year).then ((ncmp a.month b.month).then (ncmp a.day b.day)) := by
  obtain ⟨ha1, ha2, ha3, ha4, ha5, ha6, -, -, -, -⟩ := ha
  obtain ⟨hb1, hb2, hb3, hb4, hb5, hb6, -, -, -, -⟩ := hb
  unfold dateChars
  rw [strCmp_sep_pad4 '-', strCmp_sep_pad2 '-',
    strCmp_pad4 (by omega) (by omega), strCmp_pad2 (by omega) (by omega),
    strCmp_pad2 (by omega) (by omega)]

theorem strCmp_timeChars {a b : Timestamp} (ha : a.Valid) (hb : b.Valid) :
    strCmp (timeChars a) (timeChars b) =
      (ncmp a.hour b.hour).then ((ncmp a.minute b.minute).then (ncmp a.second b.second)) := by
  obtain ⟨-, -, -, -, -, -, ha7, ha8, ha9, -⟩ := ha
  obtain ⟨-, -, -, -, -, -, hb7, hb8, hb9, -⟩ := hb
  unfold timeChars
  rw [strCmp_sep_pad2 ':', strCmp_sep_pad2 ':',
    strCmp_pad2 (by omega) (by omega), strCmp_pad2 (by omega) (by omega),
    strCmp_pad2 (by omega) (by omega)]

theorem strCmp_frac {a b : Timestamp} (ha : a.micro < 1000000) (hb : b.micro < 1000000) :
    strCmp (fracChars a) (fracChars b) = ncmp a.micro b.micro := by
  unfold fracChars
  split_ifs with h1 h2 h2
  · rw [h1, h2]; rfl
  · rw [h1, ncmp_lt (by omega)]; rfl
  · rw [h2, ncmp_gt (by omega)]; rfl
  · rw [strCmp_cons_same, strCmp_pad6 ha hb]

theorem strCmp_iso {a b : Timestamp} (ha : a.Valid) (hb : b.Valid) :
    strCmp (isoformat a) (isoformat b) = Timestamp.cmp a b := by
  have hma : a.micro < 1000000 := by
    obtain ⟨-, -, -, -, -, -, -, -, -, h⟩ := ha; omega
  have hmb : b.micro < 1000000 := by
    obtain ⟨-, -, -, -, -, -, -, -, -, h⟩ := hb; omega
  unfold isoformat
  rw [strCmp_sep 'T' (by rw [dateChars_length, dateChars_length]),
    strCmp_append_of_length (fracChars a) (fracChars b)
      (by rw [timeChars_length, timeChars_length]),
    strCmp_dateChars ha hb, strCmp_timeChars ha hb, strCmp_frac hma hmb]
  unfold Timestamp.cmp
  simp only [then_assoc]

/-! ## The date range filter on serialized timestamps -/

theorem dayStart_valid {y mo d : Nat} (h1 : 1 ≤ y) (h2 : y ≤ 9999) (h3 : 1 ≤ mo)
    (h4 : mo ≤ 12) (h5 : 1 ≤ d) (h6 : d ≤ 31) : (dayStart y mo d).Valid :=
  ⟨h1, h2, h3, h4, h5, h6, Nat.zero_le _, Nat.zero_le _, Nat.zero_le _, Nat.zero_le _⟩

theorem dayEnd_valid {y mo d : Nat} (h1 : 1 ≤ y) (h2 : y ≤ 9999) (h3 : 1 ≤ mo)
    (h4 : mo ≤ 12) (h5 : 1 ≤ d) (h6 : d ≤ 31) : (dayEnd y mo d).Valid :=
  ⟨h1, h2, h3, h4, h5, h6, Nat.le_refl _, Nat.le_refl _, Nat.le_refl _, Nat.zero_le _⟩

theorem dateStart_dateArg (y mo d : Nat) :
    dateStart (dateArg y mo d) = isoformat (dayStart y mo d) := by
  simp [dateStart, dateArg, isoformat, dateChars, timeChars, fracChars, dayStart]
  rfl

theorem dateEnd_dateArg (y mo d : Nat) :
    dateEnd (dateArg y mo d) = isoformat (dayEnd y mo d) := by
  simp [dateEnd, dateArg, isoformat, dateChars, timeChars, fracChars, dayEnd]
  rfl

/-- On a valid serialized timestamp, the code's text range filter for day
`(y, mo, d)` is exactly chronological membership in the closed interval
`[D 00:00:00, D 23:59:59]`. -/
theorem inDateRange_iso {y mo d : Nat} (h1 : 1 ≤ y) (h2 : y ≤ 9999) (h3 : 1 ≤ mo)
    (h4 : mo ≤ 12) (h5 : 1 ≤ d) (h6 : d ≤ 31) {t : Timestamp} (ht : t.Valid) :
    inDateRange (dateArg y mo d) (isoformat t)
      = (chronoLe (dayStart y mo d) t && chronoLe t (dayEnd y mo d)) := by
  unfold inDateRange chronoLe strLe
  rw [dateStart_dateArg, dateEnd_dateArg,
    strCmp_iso (dayStart_valid h1 h2 h3 h4 h5 h6) ht,
    strCmp_iso ht (dayEnd_valid h1 h2 h3 h4 h5 h6)]

/-! ## The manual time filter on serialized timestamps -/

theorem T_not_mem_dateChars {t : Timestamp} (ht : t.Valid) : 'T' ∉ dateChars t := by
  obtain ⟨-, hy, -, hmo, -, hd, -, -, -, -⟩ := ht
  unfold dateChars
  intro hmem
  simp only [List.mem_append, List.mem_cons] at hmem
  rcases hmem with h | h | h | h | h
  · exact absurd (pad4_all_digits (by omega) _ h) (by decide)
  · exact absurd h (by decide)
  · exact absurd (pad2_all_digits (by omega) _ h) (by decide)
  · exact absurd h (by decide)
  · exact absurd (pad2_all_digits (by omega) _ h) (by decide)

theorem T_not_mem_timeFrac {t : Timestamp} (ht : t.Valid) :
    'T' ∉ timeChars t ++ fracChars t := by
  obtain ⟨-, -, -, -, -, -, hh, hmi, hs, hmic⟩ := ht
  unfold timeChars fracChars
  intro hmem
  simp only [List.mem_append, List.mem_cons] at hmem
  rcases hmem with (h | h | h | h | h) | h
  · exact absurd (pad2_all_digits (by omega) _ h) (by decide)
  · exact absurd h (by decide)
  · exact absurd (pad2_all_digits (by omega) _ h) (by decide)
  · exact absurd h (by decide)
  · exact absurd (pad2_all_digits (by omega) _ h) (by decide)
  · split at h
    · cases h
    · rcases List.mem_cons.mp h with h' | h'
      · exact absurd h' (by decide)
      · exact absurd (pad6_all_digits (by omega) _ h') (by decide)

theorem pySplit_iso {t : Timestamp} (ht : t.Valid) :
    pySplit 'T' (isoformat t) = [dateChars t, timeChars t ++ fracChars t] := by
  unfold isoformat
  rw [pySplit_append _ (T_not_mem_dateChars ht),
    pySplit_of_not_mem (T_not_mem_timeFrac ht)]

theorem contains_T_iso (t : Timestamp) : (isoformat t).contains 'T' = true := by
  exact List.elem_eq_true_of_mem
    (List.mem_append_right _ (List.mem_cons_self _ _))

theorem take5_timeFrac (t : Timestamp) :
    (timeChars t ++ fracChars t).take 5 = pad2 t.hour ++ ':' :: pad2 t.minute := rfl

theorem pad2_inj {a b : Nat} (ha : a < 100) (hb : b < 100) (he : pad2 a = pad2 b) :
    a = b := by
  simp only [pad2, List.cons.injEq, and_true] at he
  obtain ⟨e1, e2⟩ := he
  have q1 := (digitChar_inj _ (by omega) _ (by omega)).mp e1
  have q2 := (digitChar_inj _ (by omega) _ (by omega)).mp e2
  omega

/-- On a valid serialized timestamp, the code's manual `HH:MM` prefix match
is exactly equality of the hour and minute fields. -/
theorem timeMatches_iso {h m : Nat} (hh : h < 100) (hm : m < 100) {t : Timestamp}
    (ht : t.Valid) :
    timeMatches (pad2 h ++ ':' :: pad2 m) (isoformat t)
      = (t.hour == h && t.minute == m) := by
  have h7 : t.hour ≤ 23 := by
    obtain ⟨-, -, -, -, -, -, h7, -, -, -⟩ := ht; exact h7
  have h8 : t.minute ≤ 59 := by
    obtain ⟨-, -, -, -, -, -, -, h8, -, -⟩ := ht; exact h8
  unfold timeMatches
  simp only [contains_T_iso, if_true]
  rw [pySplit_iso ht]
  have hg : ([dateChars t, timeChars t ++ fracChars t].getD 1 [])
      = timeChars t ++ fracChars t := rfl
  rw [hg, take5_timeFrac]
  have hiff : (pad2 t.hour ++ ':' :: pad2 t.minute = pad2 h ++ ':' :: pad2 m)
      ↔ (t.hour = h ∧ t.minute = m) := by
    constructor
    · intro he
      obtain ⟨e1, e2⟩ := List.append_inj he (by rw [pad2_length, pad2_length])
      simp only [List.cons.injEq, true_and] at e2
      exact ⟨pad2_inj (by omega) hh e1, pad2_inj (by omega) hm e2⟩
    · rintro ⟨ea, eb⟩
      rw [ea, eb]
  refine Bool.eq_iff_iff.mpr ?_
  simp only [beq_iff_eq, Bool.and_eq_true]
  exact hiff

/-! ## Canonical arguments pass the strptime validation -/

theorem colon_not_mem_pad2 {n : Nat} (h : n < 100) : ':' ∉ pad2 n :=
  not_mem_of_all_digits (pad2_all_digits h) (by decide)

theorem dash_not_mem_pad2 {n : Nat} (h : n < 100) : '-' ∉ pad2 n :=
  not_mem_of_all_digits (pad2_all_digits h) (by decide)

theorem dash_not_mem_pad4 {n : Nat} (h : n < 10000) : '-' ∉ pad4 n :=
  not_mem_of_all_digits (pad4_all_digits h) (by decide)

theorem pySplit_timeArg {hr mi sec : Nat} (h1 : hr < 100) (h2 : mi < 100)
    (h3 : sec < 100) :
    pySplit ':' (timeArg hr mi sec) = [pad2 hr, pad2 mi, pad2 sec] := by
  unfold timeArg
  rw [pySplit_append _ (colon_not_mem_pad2 h1),
    pySplit_append _ (colon_not_mem_pad2 h2),
    pySplit_of_not_mem (colon_not_mem_pad2 h3)]

theorem pySplit_dateArg {y mo d : Nat} (h1 : y < 10000) (h2 : mo < 100)
    (h3 : d < 100) :
    pySplit '-' (dateArg y mo d) = [pad4 y, pad2 mo, pad2 d] := by
  unfold dateArg
  rw [pySplit_append _ (dash_not_mem_pad4 h1),
    pySplit_append _ (dash_not_mem_pad2 h2),
    pySplit_of_not_mem (dash_not_mem_pad2 h3)]

theorem validTimeStr_timeArg {hr mi sec : Nat} (hh : hr ≤ 23) (hm : mi ≤ 59)
    (hs : sec ≤ 59) : validTimeStr (timeArg hr mi sec) = true := by
  unfold validTimeStr
  rw [pySplit_timeArg (by omega) (by omega) (by omega)]
  simp [pad2_length, digitsTok_pad2 (show hr < 100 by omega),
    digitsTok_pad2 (show mi < 100 by omega), digitsTok_pad2 (show sec < 100 by omega),
    digitsToNat_pad2 (show hr < 100 by omega), digitsToNat_pad2 (show mi < 100 by omega),
    digitsToNat_pad2 (show sec < 100 by omega), hh, hm, hs]

theorem validDateStr_dateArg {y mo d : Nat} (h1 : 1 ≤ y) (h2 : y ≤ 9999)
    (h3 : 1 ≤ mo) (h4 : mo ≤ 12) (h5 : 1 ≤ d) (h6 : d ≤ daysInMonth y mo) :
    validDateStr (dateArg y mo d) = true := by
  have hd : d < 100 := by
    have : daysInMonth y mo ≤ 31 := by
      unfold daysInMonth
      split_ifs <;> omega
    omega
  unfold validDateStr
  rw [pySplit_dateArg (by omega) (by omega) hd]
  simp [pad2_length, pad4_length, digitsTok_pad2 (show mo < 100 by omega),
    digitsTok_pad2 hd, digitsTok_pad4 (show y < 10000 by omega),
    digitsToNat_pad4 (show y < 10000 by omega),
    digitsToNat_pad2 (show mo < 100 by omega), digitsToNat_pad2 hd,
    h1, h3, h4, h5, h6]

theorem timeFilterOf_timeArg {hr mi sec : Nat} (h1 : hr < 100) (h2 : mi < 100)
    (h3 : sec < 100) : timeFilterOf (timeArg hr mi sec) = pad2 hr ++ ':' :: pad2 mi := by
  unfold timeFilterOf
  rw [pySplit_timeArg h1 h2 h3]
  rfl

theorem truthy_timeArg (hr mi sec : Nat) : truthy (some (timeArg hr mi sec)) = true := rfl

theorem truthy_dateArg (y mo d : Nat) : truthy (some (dateArg y mo d)) = true := rfl

/-! ## Evaluation lemmas for the search paths -/

theorem search_backend_down (e : String) (date time : Option (List Char)) :
    search_memories (.error e) date time = (.err (dbConnErr e), 1) := rfl

theorem applyDateFilter_skip {q : List MemoryRecord} {date : Option (List Char)}
    (h : truthy date = false) : applyDateFilter q date = .ok q := by
  simp [applyDateFilter, h]

theorem applyDateFilter_valid {q : List MemoryRecord} {d : List Char}
    (h1 : truthy (some d) = true) (h2 : validDateStr d = true) :
    applyDateFilter q (some d)
      = .ok (q.filter (fun r => inDateRange d r.timestamp)) := by
  simp [applyDateFilter, h1, h2]

theorem applyDateFilter_invalid {q : List MemoryRecord} {d : List Char}
    (h1 : truthy (some d) = true) (h2 : validDateStr d = false) :
    applyDateFilter q (some d) = .error dateFmtErr := by
  simp [applyDateFilter, h1, h2]

theorem applyTimeStep_skip {q2 : List MemoryRecord} {time : Option (List Char)}
    (h : truthy time = false) : applyTimeStep q2 time = (.ok (sortDesc q2), 2) := by
  simp [applyTimeStep, h]

theorem applyTimeStep_valid {q2 : List MemoryRecord} {t : List Char}
    (h1 : truthy (some t) = true) (h2 : validTimeStr t = true) :
    applyTimeStep q2 (some t)
      = (.ok (q2.filter (fun r => timeMatches (timeFilterOf t) r.timestamp)), 2) := by
  simp [applyTimeStep, h1, h2]

theorem applyTimeStep_invalid {q2 : List MemoryRecord} {t : List Char}
    (h1 : truthy (some t) = true) (h2 : validTimeStr t = false) :
    applyTimeStep q2 (some t) = (.err timeFmtErr, 1) := by
  simp [applyTimeStep, h1, h2]

theorem search_ok_step {db : List MemoryRecord} {date time : Option (List Char)} :
    search_memories (.ok db) date time
      = match applyDateFilter (userRecords db) date with
        | .error m => (.err m, 1)
        | .ok q2 => applyTimeStep q2 time := rfl

theorem userRecords_map (db : List TRecord) :
    userRecords (db.map TRecord.toMemory)
      = (db.filter (fun r => r.user_id == DEFAULT_USER_ID)).map TRecord.toMemory := by
  unfold userRecords
  rw [List.filter_map]
  rfl

/-! ## Shared helpers for settling the claims -/

theorem validDateStr_nil : validDateStr [] = false := rfl

theorem validTimeStr_nil : validTimeStr [] = false := rfl

theorem truthy_of_validDate {d : List Char} (h : validDateStr d = true) :
    truthy (some d) = true := by
  cases d with
  | nil => rw [validDateStr_nil] at h; cases h
  | cons c cs => rfl

theorem truthy_of_validTime {t : List Char} (h : validTimeStr t = true) :
    truthy (some t) = true := by
  cases t with
  | nil => rw [validTimeStr_nil] at h; cases h
  | cons c cs => rfl

/-- When the date argument is absent, empty, or valid, the date step
produces a narrowed query rather than an error. -/
theorem applyDateFilter_ok_of {q : List MemoryRecord} {date : Option (List Char)}
    (h : truthy date = false ∨ validDateStr (date.getD []) = true) :
    ∃ q2, applyDateFilter q date = .ok q2 := by
  rcases h with h | h
  · exact ⟨q, applyDateFilter_skip h⟩
  · cases date with
    | none => exact ⟨q, applyDateFilter_skip rfl⟩
    | some d =>
      cases htr : truthy (some d) with
      | false => exact ⟨q, applyDateFilter_skip htr⟩
      | true => exact ⟨_, applyDateFilter_valid htr (by simpa using h)⟩

theorem applyDateFilter_subset {q : List MemoryRecord} {date : Option (List Char)}
    {q2 : List MemoryRecord} (h : applyDateFilter q date = .ok q2) :
    ∀ x ∈ q2, x ∈ q := by
  intro x hx
  unfold applyDateFilter at h
  by_cases ht : truthy date = true
  · rw [if_pos ht] at h
    by_cases hv : validDateStr (date.getD []) = true
    · rw [if_pos hv] at h
      simp only [Except.ok.injEq] at h
      rw [← h] at hx
      exact (List.mem_filter.mp hx).1
    · rw [if_neg hv] at h
      simp at h
  · rw [if_neg ht] at h
    simp only [Except.ok.injEq] at h
    rw [← h] at hx
    exact hx

/-- Every record an ok search result returns comes from the user-scoped
base query. -/
theorem search_result_subset_userRecords {db : List MemoryRecord}
    {date time : Option (List Char)} {rs : List MemoryRecord} {n : Nat}
    (hres : search_memories (.ok db) date time = (.ok rs, n)) :
    ∀ r ∈ rs, r ∈ userRecords db := by
  intro r hr
  rw [search_ok_step] at hres
  cases hdf : applyDateFilter (userRecords db) date with
  | error m =>
    rw [hdf] at hres
    have hres' : (SearchOutcome.err m, 1) = (SearchOutcome.ok rs, n) := hres
    simp at hres'
  | ok q2 =>
    have hres' : applyTimeStep q2 time = (SearchOutcome.ok rs, n) := by
      rw [hdf] at hres
      exact hres
    have hq2 := applyDateFilter_subset hdf
    unfold applyTimeStep at hres'
    by_cases ht : truthy time = true
    · rw [if_pos ht] at hres'
      by_cases hv : validTimeStr (time.getD []) = true
      · rw [if_pos hv] at hres'
        simp only [Prod.mk.injEq, SearchOutcome.ok.injEq] at hres'
        obtain ⟨he, -⟩ := hres'
        rw [← he] at hr
        exact hq2 r (List.mem_filter.mp hr).1
      · rw [if_neg hv] at hres'
        simp at hres'
    · rw [if_neg ht] at hres'
      simp only [Prod.mk.injEq, SearchOutcome.ok.injEq] at hres'
      obtain ⟨he, -⟩ := hres'
      rw [← he] at hr
      exact hq2 r (mem_sortDesc.mp hr)

/-! ## The claims -/

/-- C1, counterexample: with a time filter, `search_memories` returns the
manually filtered records in backend storage order without ordering them;
here the two matching records come back oldest first, so the sequence is
not newest-timestamp-first. -/
theorem C1_counterexample :
    search_memories
        (.ok [⟨1, "old", "2024-01-01T14:30:00".toList, "m1"⟩,
              ⟨1, "new", "2024-01-02T14:30:00".toList, "m2"⟩])
        none (some "14:30:00".toList)
      = (.ok [⟨1, "old", "2024-01-01T14:30:00".toList, "m1"⟩,
              ⟨1, "new", "2024-01-02T14:30:00".toList, "m2"⟩], 2)
    ∧ strLe ("2024-01-02T14:30:00".toList) ("2024-01-01T14:30:00".toList) = false := by
  decide

/-- C1 (amended): whenever a `search_memories` call succeeds and no time
filter was supplied (absent or empty), the returned records are ordered
newest timestamp first; with a time filter the results keep backend
storage order instead. -/
theorem C1_newest_first_without_time_filter
    (backend : Except String (List MemoryRecord)) (date time : Option (List Char))
    (ht : truthy time = false) (rs : List MemoryRecord) (n : Nat)
    (hres : search_memories backend date time = (.ok rs, n)) :
    NewestFirst rs := by
  cases backend with
  | error e =>
    rw [search_backend_down] at hres
    simp at hres
  | ok db =>
    rw [search_ok_step] at hres
    cases hdf : applyDateFilter (userRecords db) date with
    | error m =>
      rw [hdf] at hres
      have hres' : (SearchOutcome.err m, 1) = (SearchOutcome.ok rs, n) := hres
      simp at hres'
    | ok q2 =>
      have hres' : applyTimeStep q2 time = (SearchOutcome.ok rs, n) := by
        rw [hdf] at hres
        exact hres
      rw [applyTimeStep_skip ht] at hres'
      simp only [Prod.mk.injEq, SearchOutcome.ok.injEq] at hres'
      obtain ⟨he, -⟩ := hres'
      rw [← he]
      exact newestFirst_sortDesc q2

/-- Witness for C1 at a concrete input: two records, no filters. -/
theorem C1_witness :
    NewestFirst [⟨1, "new", "2024-01-02T14:30:00".toList, "m2"⟩,
                 ⟨1, "old", "2024-01-01T14:30:00".toList, "m1"⟩] :=
  C1_newest_first_without_time_filter
    (.ok [⟨1, "old", "2024-01-01T14:30:00".toList, "m1"⟩,
          ⟨1, "new", "2024-01-02T14:30:00".toList, "m2"⟩])
    none none (by decide) _ 2 (by decide)

/-- C2, counterexample: a malformed date is rejected only after the
unconditional probe query of lines 124-130 has already executed — the
execute count at the validation error is 1, not 0. -/
theorem C2_counterexample :
    validDateStr "not-a-date".toList = false
    ∧ search_memories (.ok []) (some "not-a-date".toList) none
        = (.err dateFmtErr, 1)
    ∧ (search_memories (.ok []) (some "not-a-date".toList) none).2 ≠ 0 := by
  decide

/-- C2 (amended): when the backend probe succeeds and the supplied date or
time argument is malformed, `search_memories` returns a validation error
having executed exactly one backend query — the pre-validation probe — and
never the filtered query. -/
theorem C2_validation_after_probe
    (db : List MemoryRecord) (date time : Option (List Char))
    (h : (truthy date = true ∧ validDateStr (date.getD []) = false)
       ∨ ((truthy date = false ∨ validDateStr (date.getD []) = true)
           ∧ truthy time = true ∧ validTimeStr (time.getD []) = false)) :
    ∃ m, search_memories (.ok db) date time = (.err m, 1) := by
  rcases h with ⟨h1, h2⟩ | ⟨hd, h1, h2⟩
  · cases date with
    | none => simp [truthy] at h1
    | some d =>
      exact ⟨dateFmtErr, by
        rw [search_ok_step, applyDateFilter_invalid h1 (by simpa using h2)]⟩
  · obtain ⟨q2, hq2⟩ := applyDateFilter_ok_of (q := userRecords db) hd
    cases time with
    | none => simp [truthy] at h1
    | some t =>
      exact ⟨timeFmtErr, by
        rw [search_ok_step, hq2]
        exact applyTimeStep_invalid h1 (by simpa using h2)⟩

/-- Witness for C2 at a concrete input: a non-parsing date. -/
theorem C2_witness :
    ∃ m, search_memories (.ok []) (some "x".toList) none = (.err m, 1) :=
  C2_validation_after_probe [] (some "x".toList) none
    (Or.inl ⟨by decide, by decide⟩)

/-- C3: for every record set and every zero-padded well-formed `HH:MM:SS`
argument, `search_memories(time=...)` returns exactly the caller's records
whose stored timestamp has that hour and minute — the supplied seconds and
the records' dates and seconds are ignored. -/
theorem C3_time_filter_exact_hour_minute
    (db : List TRecord) (hdb : ∀ r ∈ db, r.ts.Valid)
    (hr mi sec : Nat) (hh : hr ≤ 23) (hm : mi ≤ 59) (hs : sec ≤ 59) :
    search_memories (.ok (db.map TRecord.toMemory)) none (some (timeArg hr mi sec))
      = (.ok ((db.filter (fun r =>
            r.user_id == DEFAULT_USER_ID && r.ts.hour == hr && r.ts.minute == mi)).map
            TRecord.toMemory), 2) := by
  show applyTimeStep (userRecords (db.map TRecord.toMemory)) (some (timeArg hr mi sec)) = _
  rw [applyTimeStep_valid (truthy_timeArg hr mi sec) (validTimeStr_timeArg hh hm hs)]
  rw [timeFilterOf_timeArg (by omega) (by omega) (by omega)]
  rw [userRecords_map, List.filter_map, List.filter_filter]
  have hfil : ∀ r ∈ db,
      (((fun q => timeMatches (pad2 hr ++ ':' :: pad2 mi) q.timestamp)
          ∘ TRecord.toMemory) r
        && (r.user_id == DEFAULT_USER_ID))
      = (r.user_id == DEFAULT_USER_ID && r.ts.hour == hr && r.ts.minute == mi) := by
    intro r hrm
    show (timeMatches (pad2 hr ++ ':' :: pad2 mi) (isoformat r.ts)
        && (r.user_id == DEFAULT_USER_ID)) = _
    rw [timeMatches_iso (by omega) (by omega) (hdb r hrm)]
    cases r.user_id == DEFAULT_USER_ID <;>
      cases r.ts.hour == hr <;> cases r.ts.minute == mi <;> rfl
  rw [List.filter_congr hfil]

/-- Witness for C3 at a concrete record set and filter. -/
theorem C3_witness :
    search_memories
        (.ok ([⟨1, "a", ⟨2024, 1, 2, 14, 30, 11, 0⟩⟩,
               ⟨1, "b", ⟨2024, 5, 6, 14, 31, 0, 0⟩⟩,
               ⟨2, "c", ⟨2024, 1, 2, 14, 30, 0, 0⟩⟩].map TRecord.toMemory))
        none (some (timeArg 14 30 0))
      = (.ok (([⟨1, "a", ⟨2024, 1, 2, 14, 30, 11, 0⟩⟩,
               ⟨1, "b", ⟨2024, 5, 6, 14, 31, 0, 0⟩⟩,
               ⟨2, "c", ⟨2024, 1, 2, 14, 30, 0, 0⟩⟩].filter (fun r =>
            r.user_id == DEFAULT_USER_ID && r.ts.hour == 14 && r.ts.minute == 30)).map
            TRecord.toMemory), 2) :=
  C3_time_filter_exact_hour_minute _ (by decide) 14 30 0 (by decide) (by decide)
    (by decide)

/-- C4: for every record set and every zero-padded well-formed `YYYY-MM-DD`
argument, `search_memories(date=...)` returns exactly the caller's records
whose timestamp lies in the closed interval from `D 00:00:00` to
`D 23:59:59`, newest first. -/
theorem C4_date_filter_closed_interval
    (db : List TRecord) (hdb : ∀ r ∈ db, r.ts.Valid)
    (y mo d : Nat) (h1 : 1 ≤ y) (h2 : y ≤ 9999) (h3 : 1 ≤ mo) (h4 : mo ≤ 12)
    (h5 : 1 ≤ d) (h6 : d ≤ daysInMonth y mo) :
    search_memories (.ok (db.map TRecord.toMemory)) (some (dateArg y mo d)) none
      = (.ok (sortDesc ((db.filter (fun r =>
          r.user_id == DEFAULT_USER_ID
            && (chronoLe (dayStart y mo d) r.ts && chronoLe r.ts (dayEnd y mo d)))).map
          TRecord.toMemory)), 2) := by
  have hd31 : d ≤ 31 := by
    have : daysInMonth y mo ≤ 31 := by
      unfold daysInMonth
      split_ifs <;> omega
    omega
  rw [search_ok_step,
    applyDateFilter_valid (truthy_dateArg y mo d)
      (validDateStr_dateArg h1 h2 h3 h4 h5 h6)]
  show (SearchOutcome.ok (sortDesc
      (List.filter (fun r => inDateRange (dateArg y mo d) r.timestamp)
        (userRecords (db.map TRecord.toMemory)))), 2) = _
  rw [userRecords_map, List.filter_map, List.filter_filter]
  have hfil : ∀ r ∈ db,
      (((fun q => inDateRange (dateArg y mo d) q.timestamp) ∘ TRecord.toMemory) r
        && (r.user_id == DEFAULT_USER_ID))
      = (r.user_id == DEFAULT_USER_ID
          && (chronoLe (dayStart y mo d) r.ts && chronoLe r.ts (dayEnd y mo d))) := by
    intro r hrm
    show (inDateRange (dateArg y mo d) (isoformat r.ts)
        && (r.user_id == DEFAULT_USER_ID)) = _
    rw [inDateRange_iso h1 h2 h3 h4 h5 hd31 (hdb r hrm)]
    cases r.user_id == DEFAULT_USER_ID <;>
      cases chronoLe (dayStart y mo d) r.ts <;>
        cases chronoLe r.ts (dayEnd y mo d) <;> rfl
  rw [List.filter_congr hfil]

/-- Witness for C4 at a concrete record set and date. -/
theorem C4_witness :
    search_memories
        (.ok ([⟨1, "in", ⟨2024, 1, 1, 14, 30, 0, 0⟩⟩,
               ⟨1, "out", ⟨2024, 1, 2, 0, 0, 0, 0⟩⟩,
               ⟨2, "other", ⟨2024, 1, 1, 9, 0, 0, 0⟩⟩].map TRecord.toMemory))
        (some (dateArg 2024 1 1)) none
      = (.ok (sortDesc (([⟨1, "in", ⟨2024, 1, 1, 14, 30, 0, 0⟩⟩,
               ⟨1, "out", ⟨2024, 1, 2, 0, 0, 0, 0⟩⟩,
               ⟨2, "other", ⟨2024, 1, 1, 9, 0, 0, 0⟩⟩].filter (fun r =>
          r.user_id == DEFAULT_USER_ID
            && (chronoLe (dayStart 2024 1 1) r.ts
                && chronoLe r.ts (dayEnd 2024 1 1)))).map
          TRecord.toMemory)), 2) :=
  C4_date_filter_closed_interval _ (by decide) 2024 1 1 (by decide) (by decide)
    (by decide) (by decide) (by decide) (by decide)

/-- C5: both operations are total and surface every failure as text: a
`save_memory` call replies either with the success confirmation or an
"Error saving memory" message, and a `search_memories` call yields either
a record list or one of the three error messages — nothing escapes the
operation boundary. -/
theorem C5_operations_always_return_text
    (text : String) (nowIso : List Char) (uuid : String)
    (probe : Except String (List PyVal)) (upsert : Except String Unit)
    (backend : Except String (List MemoryRecord)) (date time : Option (List Char)) :
    ((save_memory text nowIso uuid probe upsert).reply
        = "Successfully saved memory to Supabase at " ++ String.mk nowIso
      ∨ ∃ e, (save_memory text nowIso uuid probe upsert).reply
        = "Error saving memory: " ++ e)
    ∧ ((∃ rs, (search_memories backend date time).1 = .ok rs)
      ∨ (∃ e, (search_memories backend date time).1 = .err (dbConnErr e))
      ∨ (search_memories backend date time).1 = .err dateFmtErr
      ∨ (search_memories backend date time).1 = .err timeFmtErr) := by
  constructor
  · cases probe with
    | error e => exact Or.inr ⟨e, rfl⟩
    | ok data =>
      cases upsert with
      | error e => exact Or.inr ⟨e, rfl⟩
      | ok u => exact Or.inl rfl
  · cases backend with
    | error e => exact Or.inr (Or.inl ⟨e, rfl⟩)
    | ok db =>
      cases hdf : applyDateFilter (userRecords db) date with
      | error m =>
        have hm : m = dateFmtErr := by
          unfold applyDateFilter at hdf
          by_cases ht : truthy date = true
          · rw [if_pos ht] at hdf
            by_cases hv : validDateStr (date.getD []) = true
            · rw [if_pos hv] at hdf; cases hdf
            · rw [if_neg hv] at hdf
              simpa using hdf.symm
          · rw [if_neg ht] at hdf; cases hdf
        subst hm
        refine Or.inr (Or.inr (Or.inl ?_))
        rw [search_ok_step, hdf]
      | ok q2 =>
        have hstep : search_memories (.ok db) date time = applyTimeStep q2 time := by
          rw [search_ok_step, hdf]
        rw [hstep]
        unfold applyTimeStep
        by_cases ht : truthy time = true
        · rw [if_pos ht]
          by_cases hv : validTimeStr (time.getD []) = true
          · rw [if_pos hv]
            exact Or.inl ⟨_, rfl⟩
          · rw [if_neg hv]
            exact Or.inr (Or.inr (Or.inr rfl))
        · rw [if_neg ht]
          exact Or.inl ⟨_, rfl⟩

/-- C6, counterexample: the empty string does not parse as `YYYY-MM-DD`,
yet `search_memories(date="")` returns an ordinary (non-error) result —
`if date:` treats the empty string as an absent filter. -/
theorem C6_counterexample :
    validDateStr [] = false
    ∧ search_memories
        (.ok [⟨1, "a", "2024-01-01T10:00:00".toList, "m"⟩]) (some []) none
      = (.ok [⟨1, "a", "2024-01-01T10:00:00".toList, "m"⟩], 2) := by
  decide

/-- C6 (amended): when the backend is reachable, every NON-EMPTY date
argument that does not parse as `YYYY-MM-DD` yields the message
"Invalid date format. Use YYYY-MM-DD.", and every non-empty time argument
that does not parse as `HH:MM:SS` (the date argument being absent, empty
or valid) yields "Invalid time format. Use HH:MM:SS." — never a silently
empty result. -/
theorem C6_invalid_filter_error
    (db : List MemoryRecord) (d t : Option (List Char)) :
    (truthy d = true → validDateStr (d.getD []) = false →
        search_memories (.ok db) d t = (.err dateFmtErr, 1))
    ∧ ((truthy d = false ∨ validDateStr (d.getD []) = true) →
        truthy t = true → validTimeStr (t.getD []) = false →
        search_memories (.ok db) d t = (.err timeFmtErr, 1)) := by
  constructor
  · intro h1 h2
    cases d with
    | none => simp [truthy] at h1
    | some dd =>
      rw [search_ok_step, applyDateFilter_invalid h1 (by simpa using h2)]
  · intro hd h1 h2
    obtain ⟨q2, hq2⟩ := applyDateFilter_ok_of (q := userRecords db) hd
    cases t with
    | none => simp [truthy] at h1
    | some tt =>
      rw [search_ok_step, hq2]
      exact applyTimeStep_invalid h1 (by simpa using h2)

/-- Witness for C6 at a concrete input: a non-parsing, non-empty date. -/
theorem C6_witness :
    search_memories (.ok []) (some "zzz".toList) none = (.err dateFmtErr, 1) :=
  (C6_invalid_filter_error [] (some "zzz".toList) none).1 (by decide) (by decide)

/-- C7: with a valid date and a valid time, the combined call returns (as
a set) exactly the intersection of the date-only result and the time-only
result. -/
theorem C7_combined_filter_is_intersection
    (db : List MemoryRecord) (d t : List Char)
    (hd : validDateStr d = true) (ht : validTimeStr t = true)
    (rs1 rs2 rs3 : List MemoryRecord) (n1 n2 n3 : Nat)
    (e1 : search_memories (.ok db) (some d) (some t) = (.ok rs1, n1))
    (e2 : search_memories (.ok db) (some d) none = (.ok rs2, n2))
    (e3 : search_memories (.ok db) none (some t) = (.ok rs3, n3))
    (r : MemoryRecord) :
    r ∈ rs1 ↔ (r ∈ rs2 ∧ r ∈ rs3) := by
  have hdt := truthy_of_validDate hd
  have htt := truthy_of_validTime ht
  rw [search_ok_step, applyDateFilter_valid hdt hd] at e1 e2
  rw [search_ok_step, applyDateFilter_skip (show truthy none = false from rfl)] at e3
  have e1' : applyTimeStep
      ((userRecords db).filter (fun q => inDateRange d q.timestamp)) (some t)
      = (SearchOutcome.ok rs1, n1) := e1
  have e2' : applyTimeStep
      ((userRecords db).filter (fun q => inDateRange d q.timestamp)) none
      = (SearchOutcome.ok rs2, n2) := e2
  have e3' : applyTimeStep (userRecords db) (some t) = (SearchOutcome.ok rs3, n3) := e3
  rw [applyTimeStep_valid htt ht] at e1' e3'
  rw [applyTimeStep_skip (show truthy none = false from rfl)] at e2'
  simp only [Prod.mk.injEq, SearchOutcome.ok.injEq] at e1' e2' e3'
  obtain ⟨he1, -⟩ := e1'
  obtain ⟨he2, -⟩ := e2'
  obtain ⟨he3, -⟩ := e3'
  rw [← he1, ← he2, ← he3]
  simp only [List.mem_filter, mem_sortDesc]
  tauto

/-- Witness for C7 at a concrete record set, date and time. -/
theorem C7_witness :
    (⟨1, "both", "2024-01-01T14:30:05".toList, "mA"⟩ : MemoryRecord)
        ∈ [(⟨1, "both", "2024-01-01T14:30:05".toList, "mA"⟩ : MemoryRecord)]
      ↔ ((⟨1, "both", "2024-01-01T14:30:05".toList, "mA"⟩ : MemoryRecord)
          ∈ [(⟨1, "both", "2024-01-01T14:30:05".toList, "mA"⟩ : MemoryRecord),
             ⟨1, "dateonly", "2024-01-01T10:00:00".toList, "mB"⟩]
        ∧ (⟨1, "both", "2024-01-01T14:30:05".toList, "mA"⟩ : MemoryRecord)
          ∈ [(⟨1, "both", "2024-01-01T14:30:05".toList, "mA"⟩ : MemoryRecord),
             ⟨1, "timeonly", "2024-02-02T14:30:59".toList, "mC"⟩]) :=
  C7_combined_filter_is_intersection
    [⟨1, "both", "2024-01-01T14:30:05".toList, "mA"⟩,
     ⟨1, "dateonly", "2024-01-01T10:00:00".toList, "mB"⟩,
     ⟨1, "timeonly", "2024-02-02T14:30:59".toList, "mC"⟩]
    "2024-01-01".toList "14:30:00".toList (by decide) (by decide)
    _ _ _ 2 2 2 (by decide) (by decide) (by decide)
    ⟨1, "both", "2024-01-01T14:30:05".toList, "mA"⟩

/-- C8: both operations are pinned to `DEFAULT_USER_ID`: every payload
built by `save_memory` carries `user_id = 1` regardless of the input, and
every record an ok `search_memories` result returns has `user_id = 1`,
whatever the caller supplied. -/
theorem C8_fixed_user_scope
    (text : String) (nowIso : List Char) (uuid : String) (probeData : List PyVal)
    (backend : Except String (List MemoryRecord)) (date time : Option (List Char)) :
    (memory_data text nowIso uuid probeData).user_id = DEFAULT_USER_ID
    ∧ (∀ rs n, search_memories backend date time = (.ok rs, n) →
        ∀ r ∈ rs, r.user_id = DEFAULT_USER_ID) := by
  refine ⟨rfl, ?_⟩
  intro rs n hres r hr
  cases backend with
  | error e =>
    rw [search_backend_down] at hres
    simp at hres
  | ok db =>
    have hmem := search_result_subset_userRecords hres r hr
    have := (List.mem_filter.mp hmem).2
    simpa using this

/-- Witness for C8 at a concrete input. -/
theorem C8_witness :
    (memory_data "note" "2024-01-01T00:00:00".toList "u-1" []).user_id
      = DEFAULT_USER_ID :=
  (C8_fixed_user_scope "note" "2024-01-01T00:00:00".toList "u-1" []
    (.ok []) none none).1

/-- C9: the probe guard `"id" in ...data` compares the string "id" with
row dicts, so it is false for every backend response whose rows are dicts;
the payload's id is therefore always absent and no client-generated
identifier reaches the upsert. -/
theorem C9_probe_guard_never_hits
    (text : String) (nowIso : List Char) (uuid : String) (probeData : List PyVal)
    (hdicts : ∀ v ∈ probeData, v.isDict = true) :
    idProbeHit probeData = false
    ∧ (memory_data text nowIso uuid probeData).id = none := by
  have hhit : idProbeHit probeData = false := by
    unfold idProbeHit
    rw [List.any_eq_false]
    intro v hv
    have hd := hdicts v hv
    cases v with
    | pstr s => simp [PyVal.isDict] at hd
    | pint n2 => simp [PyVal.isDict] at hd
    | pdict f => simp
  refine ⟨hhit, ?_⟩
  unfold memory_data
  rw [hhit]
  rfl

/-- Witness for C9 at a concrete probe response. -/
theorem C9_witness :
    idProbeHit [PyVal.pdict [("id", PyPrim.i 7)]] = false
    ∧ (memory_data "note" "2024-01-01T00:00:00".toList "u-1"
        [PyVal.pdict [("id", PyPrim.i 7)]]).id = none :=
  C9_probe_guard_never_hits "note" "2024-01-01T00:00:00".toList "u-1"
    [PyVal.pdict [("id", PyPrim.i 7)]] (by decide)

/-- C10: `save_memory` performs no non-empty-content check: with the empty
string (and a working backend) it upserts a payload whose content is the
empty string and replies with the success confirmation carrying the
timestamp. -/
theorem C10_empty_content_accepted
    (nowIso : List Char) (uuid : String) (probeData : List PyVal) :
    (save_memory "" nowIso uuid (.ok probeData) (.ok ())).reply
      = "Successfully saved memory to Supabase at " ++ String.mk nowIso
    ∧ ∃ md, (save_memory "" nowIso uuid (.ok probeData) (.ok ())).upserted = some md
        ∧ md.content = "" :=
  ⟨rfl, memory_data "" nowIso uuid probeData, rfl, rfl⟩

/-- Witness for C5 at a concrete input. -/
theorem C5_witness :
    ((save_memory "x" [] "u" (.ok []) (.ok ())).reply
        = "Successfully saved memory to Supabase at " ++ String.mk []
      ∨ ∃ e, (save_memory "x" [] "u" (.ok []) (.ok ())).reply
        = "Error saving memory: " ++ e)
    ∧ ((∃ rs, (search_memories (.ok []) none none).1 = .ok rs)
      ∨ (∃ e, (search_memories (.ok []) none none).1 = .err (dbConnErr e))
      ∨ (search_memories (.ok []) none none).1 = .err dateFmtErr
      ∨ (search_memories (.ok []) none none).1 = .err timeFmtErr) :=
  C5_operations_always_return_text "x" [] "u" (.ok []) (.ok ()) (.ok []) none none

/-- Witness for C10 at a concrete input. -/
theorem C10_witness :
    (save_memory "" [] "u" (.ok []) (.ok ())).reply
      = "Successfully saved memory to Supabase at " ++ String.mk []
    ∧ ∃ md, (save_memory "" [] "u" (.ok []) (.ok ())).upserted = some md
        ∧ md.content = "" :=
  C10_empty_content_accepted [] "u" []
